import Mathlib

/-!
Verification of the hive blob/commitment test-engine core.

Shallow embedding conventions:
* Go byte slices and arrays become `List Nat` with every entry `< 256` where it
  matters; machine integers (`uint64`, `helper.BlobID`) become `Nat` with an
  explicit `% 2 ^ 64` wherever Go's modular arithmetic is observable, and
  theorems about `uint64` inputs carry a `< 2 ^ 64` bound.
* `crypto/sha256` and the go-kzg-4844 commitment/proof capability are external
  collaborators (spec section 1, "OUT OF SCOPE"); they are passed in as opaque
  function parameters, exactly as the code receives `gokzg4844.Context`.
* A Go `*T` pointer argument that may be `nil` becomes `Option T`; a Go
  `(value, error)` return becomes a pair with an `Option String` error or an
  `Except String` value.
* A `typ.Blob` (`[131072]byte`, accessed exclusively in aligned 32-byte
  chunks) becomes a list of 4096 chunks, each a 32-byte list.
-/

namespace Hive

/-- Big-endian integer value of a byte list (Go bytes compared against
`gokzg4844.BlsModulus` interpret most-significant byte first). -/
def bytesBE (bs : List Nat) : Nat :=
  bs.foldl (fun acc b => acc * 256 + b) 0

/-- `gokzg4844.BlsModulus`: the 32 big-endian bytes of the BLS12-381 scalar
field modulus, as fixed by the go-kzg-4844 library. -/
def BlsModulus : List Nat :=
  [0x73, 0xed, 0xa7, 0x53, 0x29, 0x9d, 0x7d, 0x48,
   0x33, 0x39, 0xd8, 0x08, 0x09, 0xa1, 0xd8, 0x05,
   0x53, 0xbd, 0xa4, 0x02, 0xff, 0xfe, 0x5b, 0xfe,
   0xff, 0xff, 0xff, 0xff, 0x00, 0x00, 0x00, 0x01]

/-- `typ.FieldElementsPerBlob` from types/blobs.go. -/
def FieldElementsPerBlob : Nat := 4096

/-- Go's `copy(dst[:], src)` into a fresh 32-byte array: truncates a longer
source and leaves trailing zero bytes for a shorter one. -/
def copy32 (src : List Nat) : List Nat :=
  (src ++ List.replicate 32 0).take 32

/-- `binary.BigEndian.PutUint64`: the eight big-endian bytes of a `uint64`
(`blobId % 2^64` for a `Nat` model value). -/
def beBytes8 (id : Nat) : List Nat :=
  [id / 256 ^ 7 % 256, id / 256 ^ 6 % 256, id / 256 ^ 5 % 256, id / 256 ^ 4 % 256,
   id / 256 ^ 3 % 256, id / 256 ^ 2 % 256, id / 256 % 256, id % 256]

/-- The clamping loop shared by `FillBlob` and `VerifyBlob`
(helper/blobs.go): scan the 32 bytes most-significant first; stop as soon as
the byte is below the modulus byte; if it is not and the modulus byte is
positive, set the byte to modulus byte - 1 and stop; otherwise force the byte
to the (zero) modulus byte and continue with the next position. -/
def clampFieldElement (elem : List Nat) (i : Nat) : List Nat :=
  if h : i < 32 then
    let m := BlsModulus.getD i 0
    if elem.getD i 0 < m then
      elem
    else if 0 < m then
      elem.set i (m - 1)
    else
      clampFieldElement (elem.set i m) (i + 1)
  else
    elem
termination_by 32 - i

/-- The chunk-filling loop of `FillBlob`: write the running hash into the next
32-byte chunk, clamp that chunk in place, then advance the hash chain with
`sha256(currentHashed)`. `n` counts the chunks still to fill. -/
def fillChunks (sha256 : List Nat → List Nat) (currentHashed : List Nat) : Nat → List (List Nat)
  | 0 => []
  | n + 1 =>
      clampFieldElement (copy32 currentHashed) 0 ::
        fillChunks sha256 (sha256 currentHashed) n

/-- `BlobID.FillBlob` (helper/blobs.go): `nil` blob is an error; blob id 0
leaves the (all-zero) buffer untouched; otherwise every one of the 4096 chunks
is overwritten with the clamped sha256 chain seeded from the big-endian id. -/
def FillBlob (sha256 : List Nat → List Nat) (blobId : Nat)
    (blob : Option (List (List Nat))) : Except String (List (List Nat)) :=
  match blob with
  | none => Except.error "nil blob"
  | some b =>
      if blobId = 0 then
        Except.ok b
      else
        Except.ok (fillChunks sha256 (sha256 (beBytes8 blobId)) FieldElementsPerBlob)

/-- The chunk-comparison loop of `VerifyBlob` for a nonzero id: recompute the
expected clamped chunk from the hash chain and compare; the first mismatch
returns false. -/
def verifyChunks (sha256 : List Nat → List Nat) (currentHashed : List Nat)
    (b : List (List Nat)) : Nat → Bool
  | 0 => true
  | n + 1 =>
      if b.headD [] = clampFieldElement (copy32 currentHashed) 0 then
        verifyChunks sha256 (sha256 currentHashed) b.tail n
      else
        false

/-- The chunk loop of `VerifyBlob` for blob id 0: every chunk must equal the
all-zero field element. -/
def zeroChunksCheck (b : List (List Nat)) : Nat → Bool
  | 0 => true
  | n + 1 =>
      if b.headD [] = List.replicate 32 0 then
        zeroChunksCheck b.tail n
      else
        false

/-- `BlobID.VerifyBlob` (helper/blobs.go), returning Go's `(bool, error)`
pair: `nil` blob reports a distinct error; id 0 accepts exactly the all-zero
buffer; otherwise the deterministic chain is recomputed and compared. -/
def VerifyBlob (sha256 : List Nat → List Nat) (blobId : Nat)
    (blob : Option (List (List Nat))) : Bool × Option String :=
  match blob with
  | none => (false, some "nil blob")
  | some b =>
      if blobId = 0 then
        (zeroChunksCheck b FieldElementsPerBlob, none)
      else
        (verifyChunks sha256 (sha256 (beBytes8 blobId)) b FieldElementsPerBlob, none)

/-- The canonical fresh blob buffer (`typ.Blob{}`): 4096 all-zero chunks. -/
def zeroBlob : List (List Nat) :=
  List.replicate FieldElementsPerBlob (List.replicate 32 0)

/-- `typ.BlobCommitmentVersionKZG` (types/blobs.go): the protocol version
byte 0x01 stamped into every versioned hash. -/
def BlobCommitmentVersionKZG : Nat := 0x01

/-- `typ.KZGToVersionedHash` (types/blobs.go): hash the 48-byte commitment
with sha256 and overwrite byte 0 with the version constant. `sha256` is the
external `crypto/sha256` collaborator. -/
def KZGToVersionedHash (sha256 : List Nat → List Nat) (kzg : List Nat) : List Nat :=
  (sha256 kzg).set 0 BlobCommitmentVersionKZG

/-- The opaque crypto capability context (`gokzg4844.Context`): spec section 1
treats the polynomial-commitment math as an external capability
`\x7bcompute-commitment, compute-proof\x7d`. Blobs and proofs are opaque here;
commitments are byte lists because versioned hashes are derived from them. -/
structure KZGContext where
  BlobToKZGCommitment : Nat → Except String (List Nat)
  ComputeBlobKZGProof : Nat → List Nat → Except String Nat

/-- Go's four named return values of `Blobs.ComputeCommitmentsAndProofs`
(types/blobs.go): `(commitments, versionedHashes, proofs, err)`. -/
structure CAPResult where
  commitments : List (List Nat)
  versionedHashes : List (List Nat)
  proofs : List Nat
  err : Option String
deriving Repr, DecidableEq

/-- The loop body of `ComputeCommitmentsAndProofs`: for each blob in order,
ask the context for its commitment, then its proof, and derive the versioned
hash; the first failure aborts with the wrapped library error. -/
def computeCAPLoop (sha256 : List Nat → List Nat) (cryptoCtx : KZGContext) :
    List Nat → Except String (List (List Nat) × List (List Nat) × List Nat)
  | [] => Except.ok ([], [], [])
  | blob :: rest =>
      match cryptoCtx.BlobToKZGCommitment blob with
      | Except.error e =>
          Except.error ("could not convert blob to commitment: " ++ e)
      | Except.ok commitment =>
          match cryptoCtx.ComputeBlobKZGProof blob commitment with
          | Except.error e =>
              Except.error ("could not compute proof for blob: " ++ e)
          | Except.ok proof =>
              match computeCAPLoop sha256 cryptoCtx rest with
              | Except.error e => Except.error e
              | Except.ok (cs, vs, ps) =>
                  Except.ok (commitment :: cs,
                    KZGToVersionedHash sha256 commitment :: vs,
                    proof :: ps)

/-- `Blobs.ComputeCommitmentsAndProofs` (types/blobs.go): on any failure the
Go function returns `nil, nil, nil, err`; on success the three parallel lists
are returned with a `nil` error. -/
def ComputeCommitmentsAndProofs (sha256 : List Nat → List Nat)
    (cryptoCtx : KZGContext) (blobs : List Nat) : CAPResult :=
  match computeCAPLoop sha256 cryptoCtx blobs with
  | Except.error e => ⟨[], [], [], some e⟩
  | Except.ok (cs, vs, ps) => ⟨cs, vs, ps, none⟩

/-- `helper.GetBlobListByIndex` (helper/blobs.go). `BlobID` is `uint64`, so
both the `count` computation and the per-element arithmetic wrap modulo
`2 ^ 64`; in particular `endIndex - BlobID(i)` underflows when `i` exceeds
`endIndex`. -/
def GetBlobListByIndex (startIndex endIndex : Nat) : List Nat :=
  let count :=
    if endIndex > startIndex then
      (endIndex - startIndex + 1) % 2 ^ 64
    else
      (startIndex - endIndex + 1) % 2 ^ 64
  if endIndex > startIndex then
    (List.range count).map (fun i => (startIndex + i) % 2 ^ 64)
  else
    (List.range count).map (fun i => (endIndex + 2 ^ 64 - i) % 2 ^ 64)

/-- `typ.BlobTxWrapData` (types/blobs.go): the parallel blob / commitment /
proof lists carried next to a signed blob transaction. -/
structure BlobTxWrapData where
  Blobs : List Nat
  Commitments : List (List Nat)
  Proofs : List Nat
deriving Repr, DecidableEq

/-- `typ.TransactionWithBlobData`: a pool transaction bundling the signed
transaction's protocol-level blob-hash list with its (possibly nil) wrap
data. `BlobHashes` is the `[]common.Hash` list inside the signed `BlobTx`. -/
structure TransactionWithBlobData where
  BlobData : Option BlobTxWrapData
  BlobHashes : List (List Nat)
deriving Repr, DecidableEq

/-- A transaction object stored in `TestBlobTxPool.Transactions`: the Go map
holds the `typ.Transaction` interface, and `GetBlobDataInPayload` type-asserts
it down to `*typ.TransactionWithBlobData`, which can fail. -/
inductive PoolTx where
  | withBlobData (tx : TransactionWithBlobData)
  | plain
deriving Repr, DecidableEq

/-- A transaction of a built payload after `UnmarshalBinary`: only its type
tag and hash are consulted by `GetBlobDataInPayload`. Decoding and sender
recovery are external go-ethereum collaborators (spec section 6) and are
modelled as already succeeded. `types.BlobTxType` is 0x03. -/
structure DecodedTx where
  txType : Nat
  hash : Nat
deriving Repr, DecidableEq

/-- `types.BlobTxType` from go-ethereum. -/
def BlobTxType : Nat := 0x03

/-- `BlobWrapData` (suites/blobs/steps.go): one per blob of a matched pool
transaction. -/
structure BlobWrapData where
  VersionedHash : List Nat
  KZG : List Nat
  Blob : Nat
  Proof : Nat
deriving Repr, DecidableEq

/-- `GetBlobDataInPayload` (suites/blobs/steps.go): walk the payload's
transactions, skip non-blob transactions, look each blob transaction up in
the pool by hash (a miss is a hard failure), require its wrap data to be
present with all four lists of equal length, and flatten the per-blob wrap
records in payload order. The pool map is modelled as a lookup function. -/
def GetBlobDataInPayload (pool : Nat → Option PoolTx) :
    List DecodedTx → Except String (List TransactionWithBlobData × List BlobWrapData)
  | [] => Except.ok ([], [])
  | tx :: rest =>
      if tx.txType = BlobTxType then
        match pool tx.hash with
        | none => Except.error "could not find transaction in the pool"
        | some PoolTx.plain => Except.error "could not find blob data in transaction"
        | some (PoolTx.withBlobData blobTx) =>
            match blobTx.BlobData with
            | none => Except.error "blob data is nil"
            | some blobData =>
                let kzgs := blobData.Commitments
                let blobs := blobData.Blobs
                let proofs := blobData.Proofs
                let versionedHashes := blobTx.BlobHashes
                if versionedHashes.length ≠ kzgs.length ∨
                    kzgs.length ≠ blobs.length ∨ blobs.length ≠ proofs.length then
                  Except.error "invalid blob wrap data"
                else
                  match GetBlobDataInPayload pool rest with
                  | Except.error e => Except.error e
                  | Except.ok (txs, datas) =>
                      Except.ok (blobTx :: txs,
                        ((List.range versionedHashes.length).map (fun i =>
                          (⟨versionedHashes.getD i [], kzgs.getD i [],
                            blobs.getD i 0, proofs.getD i 0⟩ : BlobWrapData))) ++ datas)
      else
        GetBlobDataInPayload pool rest

/-- `config.ForkConfig` (config.go): three optional fork-activation
timestamps, each a `*big.Int` (hence `Option Int`). -/
structure ForkConfig where
  ShanghaiTimestamp : Option Int
  CancunTimestamp : Option Int
  PragueTimestamp : Option Int
deriving Repr, DecidableEq

/-- `ForkConfig.IsShanghai`: the pointer is non-nil and the block timestamp
reaches it. -/
def ForkConfig.IsShanghai (f : ForkConfig) (blockTimestamp : Nat) : Bool :=
  match f.ShanghaiTimestamp with
  | none => false
  | some t => decide ((blockTimestamp : Int) ≥ t)

/-- `ForkConfig.IsCancun`. -/
def ForkConfig.IsCancun (f : ForkConfig) (blockTimestamp : Nat) : Bool :=
  match f.CancunTimestamp with
  | none => false
  | some t => decide ((blockTimestamp : Int) ≥ t)

/-- `ForkConfig.IsPrague`. -/
def ForkConfig.IsPrague (f : ForkConfig) (blockTimestamp : Nat) : Bool :=
  match f.PragueTimestamp with
  | none => false
  | some t => decide ((blockTimestamp : Int) ≥ t)

/-- `ForkConfig.GetPayloadVersion` (config.go): Engine API version for
payload-build requests as a function of the block timestamp. -/
def ForkConfig.GetPayloadVersion (f : ForkConfig) (timestamp : Nat) : Nat :=
  if f.IsPrague timestamp then 4
  else if f.IsCancun timestamp then 3
  else if f.IsShanghai timestamp then 2
  else 1

/-- `ForkConfig.NewPayloadVersion` (config.go) simply delegates to
`GetPayloadVersion`. -/
def ForkConfig.NewPayloadVersion (f : ForkConfig) (timestamp : Nat) : Nat :=
  f.GetPayloadVersion timestamp

/-- The fields of geth's `engine.ExecutableData` consulted by
`NewPayloads.VerifyPayload`: the block timestamp and the two optional
(`*uint64`) blob-gas fields. -/
structure ExecutableData where
  Timestamp : Nat
  ExcessDataGas : Option Nat
  DataGasUsed : Option Nat
deriving Repr, DecidableEq

/-- The `NewPayloads` step (suites/blobs/steps.go); the customizer, versioned
hashes and expectation fields configure external RPC actions and are not part
of the embedded slice. -/
structure NewPayloads where
  PayloadCount : Nat
  ExpectedIncludedBlobCount : Nat
  ExpectedBlobs : List Nat
  GetPayloadDelay : Nat
  Version : Nat
deriving Repr, DecidableEq

/-- `NewPayloads.GetPayloadCount`: a zero payload count defaults to one. -/
def NewPayloads.GetPayloadCount (step : NewPayloads) : Nat :=
  if step.PayloadCount = 0 then 1 else step.PayloadCount

/-- The `LaunchClients` step (suites/blobs/steps.go); the `EngineStarter`
capability is an external collaborator. -/
structure LaunchClients where
  ClientCount : Nat
  SkipConnectingToBootnode : Bool
  SkipAddingToCLMock : Bool
deriving Repr, DecidableEq

/-- `LaunchClients.GetClientCount`: a zero client count defaults to one. -/
def LaunchClients.GetClientCount (step : LaunchClients) : Nat :=
  if step.ClientCount = 0 then 1 else step.ClientCount

/-- The `SendBlobTransactions` step (suites/blobs/steps.go); the `*big.Int`
fee caps are opaque to the embedded slice and kept as optional integers. -/
structure SendBlobTransactions where
  BlobTransactionSendCount : Nat
  BlobsPerTransaction : Nat
  BlobTransactionMaxDataGasCost : Option Int
  BlobTransactionGasFeeCap : Option Int
  BlobTransactionGasTipCap : Option Int
  ReplaceTransactions : Bool
  SkipVerificationFromNode : Bool
  AccountIndex : Nat
  ClientIndex : Nat
deriving Repr, DecidableEq

/-- `SendBlobTransactions.GetBlobsPerTransaction`: a zero blob count defaults
to one blob per transaction. -/
def SendBlobTransactions.GetBlobsPerTransaction (step : SendBlobTransactions) : Nat :=
  if step.BlobsPerTransaction = 0 then 1 else step.BlobsPerTransaction

/-- The error result of `NewPayloads.VerifyPayload` (suites/blobs/steps.go).
`CalcExcessDataGas` and `GetDataGasPrice` are repository helpers outside the
provided sources and enter as opaque parameters; the
`testEngine.TestTransactionReceipt` receipt assertions abort the test run
directly through `t.Fatalf` and never flow into this function's error return,
so only their inputs (the per-transaction blob-hash counts) appear here. -/
def NewPayloads.VerifyPayload (step : NewPayloads) (forkConfig : ForkConfig)
    (CalcExcessDataGas : Nat → Nat → Nat)
    (blobTxsInPayload : List TransactionWithBlobData)
    (payload : ExecutableData) (previousPayload : Option ExecutableData) :
    Option String :=
  let parentExcessDataGas :=
    match previousPayload with
    | none => 0
    | some pp => pp.ExcessDataGas.getD 0
  let parentDataGasUsed :=
    match previousPayload with
    | none => 0
    | some pp => pp.DataGasUsed.getD 0
  let expectedExcessDataGas := CalcExcessDataGas parentExcessDataGas parentDataGasUsed
  if forkConfig.IsCancun payload.Timestamp then
    match payload.ExcessDataGas with
    | none => some "payload contains nil excessDataGas"
    | some excessDataGas =>
        match payload.DataGasUsed with
        | none => some "payload contains nil dataGasUsed"
        | some _ =>
            if excessDataGas ≠ expectedExcessDataGas then
              some "payload contains incorrect excessDataGas"
            else
              let totalBlobCount :=
                blobTxsInPayload.foldl (fun acc tx => acc + tx.BlobHashes.length) 0
              if totalBlobCount ≠ step.ExpectedIncludedBlobCount then
                some "expected blobs in transactions mismatch"
              else
                none
  else
    if payload.ExcessDataGas ≠ none then
      some "payload contains non-nil excessDataGas pre-fork"
    else if payload.DataGasUsed ≠ none then
      some "payload contains non-nil dataGasUsed pre-fork"
    else
      none

/-! ### Arithmetic facts about big-endian byte values -/

theorem bytesBE_foldl (l : List Nat) (a : Nat) :
    l.foldl (fun acc b => acc * 256 + b) a = a * 256 ^ l.length + bytesBE l := by
  induction l generalizing a with
  | nil => simp [bytesBE]
  | cons b t ih =>
      simp only [List.foldl_cons, List.length_cons, bytesBE]
      rw [ih (a * 256 + b)]
      have hbt : t.foldl (fun acc b => acc * 256 + b) (0 * 256 + b) =
          b * 256 ^ t.length + bytesBE t := by
        rw [ih (0 * 256 + b)]
        ring_nf
      rw [hbt]
      ring

theorem bytesBE_cons (a : Nat) (t : List Nat) :
    bytesBE (a :: t) = a * 256 ^ t.length + bytesBE t := by
  have h : bytesBE (a :: t) = t.foldl (fun acc b => acc * 256 + b) (0 * 256 + a) := rfl
  rw [h, bytesBE_foldl]
  ring_nf

theorem bytesBE_lt_pow (l : List Nat) (h : ∀ x ∈ l, x < 256) :
    bytesBE l < 256 ^ l.length := by
  induction l with
  | nil => simp [bytesBE]
  | cons b t ih =>
      have hb : b < 256 := h b (by simp)
      have ht : bytesBE t < 256 ^ t.length := ih (fun x hx => h x (by simp [hx]))
      rw [bytesBE_cons, List.length_cons]
      calc b * 256 ^ t.length + bytesBE t
          < b * 256 ^ t.length + 256 ^ t.length := by omega
        _ = (b + 1) * 256 ^ t.length := by ring
        _ ≤ 256 * 256 ^ t.length := Nat.mul_le_mul_right _ (by omega)
        _ = 256 ^ (t.length + 1) := by ring

theorem le_bytesBE_modulus : 115 * 256 ^ 31 ≤ bytesBE BlsModulus := by decide

theorem bytesBE_lt_modulus (l : List Nat) (hlen : l.length = 32)
    (hb : ∀ x ∈ l, x < 256) (h0 : l.getD 0 0 ≤ 114) :
    bytesBE l < bytesBE BlsModulus := by
  cases l with
  | nil => simp at hlen
  | cons a t =>
      have hTlen : t.length = 31 := by simpa using hlen
      have ha : a ≤ 114 := by simpa using h0
      have ht : bytesBE t < 256 ^ 31 := by
        have := bytesBE_lt_pow t (fun x hx => hb x (List.mem_cons_of_mem _ hx))
        rwa [hTlen] at this
      have hmul : a * 256 ^ 31 ≤ 114 * 256 ^ 31 := Nat.mul_le_mul_right _ ha
      calc bytesBE (a :: t) = a * 256 ^ 31 + bytesBE t := by rw [bytesBE_cons, hTlen]
        _ ≤ 114 * 256 ^ 31 + bytesBE t := by omega
        _ < 114 * 256 ^ 31 + 256 ^ 31 := by omega
        _ = 115 * 256 ^ 31 := by ring
        _ ≤ bytesBE BlsModulus := le_bytesBE_modulus

/-! ### The clamping step -/

theorem clampFieldElement_zero (elem : List Nat) :
    clampFieldElement elem 0 =
      if elem.getD 0 0 < 115 then elem else elem.set 0 114 := by
  rw [clampFieldElement]
  norm_num [BlsModulus]

theorem clampFieldElement_length (elem : List Nat) :
    (clampFieldElement elem 0).length = elem.length := by
  rw [clampFieldElement_zero]
  split <;> simp

theorem clampFieldElement_head_le (elem : List Nat) (hne : elem ≠ []) :
    (clampFieldElement elem 0).getD 0 0 ≤ 114 := by
  rw [clampFieldElement_zero]
  split
  · omega
  · cases elem with
    | nil => exact absurd rfl hne
    | cons a t => simp

theorem clampFieldElement_mem_lt (elem : List Nat) (h : ∀ x ∈ elem, x < 256) :
    ∀ x ∈ clampFieldElement elem 0, x < 256 := by
  rw [clampFieldElement_zero]
  split
  · exact h
  · intro x hx
    rcases List.mem_or_eq_of_mem_set hx with h1 | h1
    · exact h x h1
    · omega

theorem copy32_length (src : List Nat) : (copy32 src).length = 32 := by
  simp [copy32]

theorem copy32_mem_lt (src : List Nat) (h : ∀ x ∈ src, x < 256) :
    ∀ x ∈ copy32 src, x < 256 := by
  intro x hx
  have hx' : x ∈ src ++ List.replicate 32 0 := List.mem_of_mem_take hx
  rcases List.mem_append.mp hx' with h1 | h1
  · exact h x h1
  · have : x = 0 := List.eq_of_mem_replicate h1
    omega

/-! ### Filling and verifying blobs -/

theorem fillChunks_length (sha256 : List Nat → List Nat) (cur : List Nat) (n : Nat) :
    (fillChunks sha256 cur n).length = n := by
  induction n generalizing cur with
  | zero => rfl
  | succ n ih => simp [fillChunks, ih]

theorem fillChunks_chunk_length (sha256 : List Nat → List Nat) :
    ∀ (n : Nat) (cur : List Nat), ∀ c ∈ fillChunks sha256 cur n, c.length = 32 := by
  intro n
  induction n with
  | zero => intro cur c hc; simp [fillChunks] at hc
  | succ n ih =>
      intro cur c hc
      rcases List.mem_cons.mp hc with h1 | h1
      · rw [h1, clampFieldElement_length, copy32_length]
      · exact ih (sha256 cur) c h1

theorem fillChunks_chunk_lt (sha256 : List Nat → List Nat)
    (hbyte : ∀ xs, ∀ x ∈ sha256 xs, x < 256) :
    ∀ (n : Nat) (cur : List Nat), (∀ x ∈ cur, x < 256) →
      ∀ c ∈ fillChunks sha256 cur n, bytesBE c < bytesBE BlsModulus := by
  intro n
  induction n with
  | zero => intro cur _ c hc; simp [fillChunks] at hc
  | succ n ih =>
      intro cur hcur c hc
      rcases List.mem_cons.mp hc with h1 | h1
      · subst h1
        have hne : copy32 cur ≠ [] := by
          intro h
          have := copy32_length cur
          rw [h] at this
          simp at this
        refine bytesBE_lt_modulus _ ?_ ?_ ?_
        · rw [clampFieldElement_length, copy32_length]
        · exact clampFieldElement_mem_lt _ (copy32_mem_lt _ hcur)
        · exact clampFieldElement_head_le _ hne
      · exact ih (sha256 cur) (hbyte cur) c h1

theorem verifyChunks_fillChunks (sha256 : List Nat → List Nat) :
    ∀ (n : Nat) (cur : List Nat),
      verifyChunks sha256 cur (fillChunks sha256 cur n) n = true := by
  intro n
  induction n with
  | zero => intro cur; rfl
  | succ n ih => intro cur; simp [fillChunks, verifyChunks, ih]

theorem zeroChunksCheck_iff :
    ∀ (n : Nat) (b : List (List Nat)), b.length = n →
      (zeroChunksCheck b n = true ↔ b = List.replicate n (List.replicate 32 0)) := by
  intro n
  induction n with
  | zero =>
      intro b hb
      cases b with
      | nil => simp [zeroChunksCheck]
      | cons c t => simp at hb
  | succ n ih =>
      intro b hb
      cases b with
      | nil => simp at hb
      | cons c t =>
          have ht : t.length = n := by simpa using hb
          simp only [zeroChunksCheck, List.headD_cons, List.tail_cons]
          rw [show List.replicate (n + 1) (List.replicate 32 0) =
            List.replicate 32 0 :: List.replicate n (List.replicate 32 0) from rfl]
          by_cases hc : c = List.replicate 32 0
          · rw [if_pos hc, ih t ht]
            simp [hc]
          · rw [if_neg hc]
            constructor
            · intro h
              simp at h
            · intro h
              injection h with h1 h2
              exact absurd h1 hc

/-! ### The commitment engine loop -/

theorem computeCAPLoop_ok_spec (sha256 : List Nat → List Nat) (cryptoCtx : KZGContext) :
    ∀ (blobs : List Nat) (cs vs : List (List Nat)) (ps : List Nat),
      computeCAPLoop sha256 cryptoCtx blobs = Except.ok (cs, vs, ps) →
      cs.length = blobs.length ∧ vs.length = blobs.length ∧ ps.length = blobs.length ∧
      ∀ i, i < blobs.length →
        cryptoCtx.BlobToKZGCommitment (blobs.getD i 0) = Except.ok (cs.getD i []) ∧
        cryptoCtx.ComputeBlobKZGProof (blobs.getD i 0) (cs.getD i []) =
          Except.ok (ps.getD i 0) ∧
        vs.getD i [] = KZGToVersionedHash sha256 (cs.getD i []) := by
  intro blobs
  induction blobs with
  | nil =>
      intro cs vs ps h
      simp only [computeCAPLoop, Except.ok.injEq, Prod.mk.injEq] at h
      obtain ⟨h1, h2, h3⟩ := h
      subst h1; subst h2; subst h3
      simp
  | cons b rest ih =>
      intro cs vs ps h
      cases hc : cryptoCtx.BlobToKZGCommitment b with
      | error e => simp [computeCAPLoop, hc] at h
      | ok commitment =>
          cases hp : cryptoCtx.ComputeBlobKZGProof b commitment with
          | error e => simp [computeCAPLoop, hc, hp] at h
          | ok proof =>
              cases hr : computeCAPLoop sha256 cryptoCtx rest with
              | error e => simp [computeCAPLoop, hc, hp, hr] at h
              | ok triple =>
                  obtain ⟨cs', vs', ps'⟩ := triple
                  simp only [computeCAPLoop, hc, hp, hr, Except.ok.injEq,
                    Prod.mk.injEq] at h
                  obtain ⟨h1, h2, h3⟩ := h
                  subst h1; subst h2; subst h3
                  obtain ⟨hl1, hl2, hl3, hspec⟩ := ih cs' vs' ps' hr
                  refine ⟨by simp [hl1], by simp [hl2], by simp [hl3], ?_⟩
                  intro i hi
                  cases i with
                  | zero => simp [hc, hp]
                  | succ j =>
                      have hj : j < rest.length := by simpa using hi
                      simpa using hspec j hj

theorem computeCAPLoop_error_spec (sha256 : List Nat → List Nat) (cryptoCtx : KZGContext) :
    ∀ (blobs : List Nat) (i : Nat) (e : String), i < blobs.length →
      (∀ j, j < i → ∃ c p,
        cryptoCtx.BlobToKZGCommitment (blobs.getD j 0) = Except.ok c ∧
        cryptoCtx.ComputeBlobKZGProof (blobs.getD j 0) c = Except.ok p) →
      (cryptoCtx.BlobToKZGCommitment (blobs.getD i 0) = Except.error e ∨
        ∃ c, cryptoCtx.BlobToKZGCommitment (blobs.getD i 0) = Except.ok c ∧
          cryptoCtx.ComputeBlobKZGProof (blobs.getD i 0) c = Except.error e) →
      ∃ s, computeCAPLoop sha256 cryptoCtx blobs = Except.error s ∧
        e.toList <:+ s.toList := by
  intro blobs
  induction blobs with
  | nil => intro i e hi; simp at hi
  | cons b rest ih =>
      intro i e hi hprev hfail
      cases i with
      | zero =>
          simp only [List.getD_cons_zero] at hfail
          rcases hfail with hc | ⟨c, hc, hp⟩
          · refine ⟨"could not convert blob to commitment: " ++ e, ?_, ?_⟩
            · simp [computeCAPLoop, hc]
            · show e.toList <:+ (("could not convert blob to commitment: " ++ e).toList)
              have : ("could not convert blob to commitment: " ++ e).toList =
                  ("could not convert blob to commitment: ").toList ++ e.toList := by
                simp [String.toList]
              rw [this]
              exact List.suffix_append _ _
          · refine ⟨"could not compute proof for blob: " ++ e, ?_, ?_⟩
            · simp [computeCAPLoop, hc, hp]
            · have : ("could not compute proof for blob: " ++ e).toList =
                  ("could not compute proof for blob: ").toList ++ e.toList := by
                simp [String.toList]
              rw [this]
              exact List.suffix_append _ _
      | succ j =>
          obtain ⟨c, p, hc, hp⟩ := hprev 0 (Nat.succ_pos j)
          simp only [List.getD_cons_zero] at hc hp
          have hprev' : ∀ k, k < j → ∃ c' p',
              cryptoCtx.BlobToKZGCommitment (rest.getD k 0) = Except.ok c' ∧
              cryptoCtx.ComputeBlobKZGProof (rest.getD k 0) c' = Except.ok p' := by
            intro k hk
            have := hprev (k + 1) (by omega)
            simpa using this
          have hfail' :
              cryptoCtx.BlobToKZGCommitment (rest.getD j 0) = Except.error e ∨
              ∃ c', cryptoCtx.BlobToKZGCommitment (rest.getD j 0) = Except.ok c' ∧
                cryptoCtx.ComputeBlobKZGProof (rest.getD j 0) c' = Except.error e := by
            simpa using hfail
          obtain ⟨s, hs, hsuf⟩ := ih j e (by simpa using hi) hprev' hfail'
          refine ⟨s, ?_, hsuf⟩
          simp [computeCAPLoop, hc, hp, hs]

/-! ### Payload / pool cross-validation -/

theorem GetBlobDataInPayload_ok_good (pool : Nat → Option PoolTx) :
    ∀ (txs : List DecodedTx)
      (r : List TransactionWithBlobData × List BlobWrapData),
      GetBlobDataInPayload pool txs = Except.ok r →
      ∀ tx ∈ txs, tx.txType = BlobTxType →
        ∃ blobTx blobData, pool tx.hash = some (PoolTx.withBlobData blobTx) ∧
          blobTx.BlobData = some blobData ∧
          blobTx.BlobHashes.length = blobData.Commitments.length ∧
          blobData.Commitments.length = blobData.Blobs.length ∧
          blobData.Blobs.length = blobData.Proofs.length := by
  intro txs
  induction txs with
  | nil => intro r _ tx htx; simp at htx
  | cons t rest ih =>
      intro r hok tx htx hty
      rcases List.mem_cons.mp htx with rfl | hmem
      · cases hpool : pool tx.hash with
        | none => simp [GetBlobDataInPayload, hty, hpool] at hok
        | some ptx =>
            cases ptx with
            | plain => simp [GetBlobDataInPayload, hty, hpool] at hok
            | withBlobData blobTx =>
                cases hdata : blobTx.BlobData with
                | none => simp [GetBlobDataInPayload, hty, hpool, hdata] at hok
                | some blobData =>
                    by_cases hlen : blobTx.BlobHashes.length ≠ blobData.Commitments.length ∨
                        blobData.Commitments.length ≠ blobData.Blobs.length ∨
                        blobData.Blobs.length ≠ blobData.Proofs.length
                    · simp only [GetBlobDataInPayload, hty, hpool, hdata,
                        if_pos hlen, if_true] at hok
                      simp at hok
                    · push_neg at hlen
                      exact ⟨blobTx, blobData, rfl, hdata, hlen.1, hlen.2.1, hlen.2.2⟩

      · by_cases hty' : t.txType = BlobTxType
        · cases hpool : pool t.hash with
          | none => simp [GetBlobDataInPayload, hty', hpool] at hok
          | some ptx =>
              cases ptx with
              | plain => simp [GetBlobDataInPayload, hty', hpool] at hok
              | withBlobData blobTx =>
                  cases hdata : blobTx.BlobData with
                  | none => simp [GetBlobDataInPayload, hty', hpool, hdata] at hok
                  | some blobData =>
                      by_cases hlen : blobTx.BlobHashes.length ≠ blobData.Commitments.length ∨
                          blobData.Commitments.length ≠ blobData.Blobs.length ∨
                          blobData.Blobs.length ≠ blobData.Proofs.length
                      · simp only [GetBlobDataInPayload, hty', hpool, hdata,
                          if_pos hlen, if_true] at hok
                        simp at hok
                      · cases hr : GetBlobDataInPayload pool rest with
                        | error e =>
                            simp [GetBlobDataInPayload, hty', hpool, hdata, hlen, hr] at hok
                        | ok r' => exact ih r' hr tx hmem hty
        · simp only [GetBlobDataInPayload, hty', if_false, if_neg hty'] at hok
          exact ih r hok tx hmem hty

/-! ### Fork policy -/

theorem ForkConfig.IsShanghai_mono (f : ForkConfig) (t1 t2 : Nat) (h : t1 ≤ t2)
    (h1 : f.IsShanghai t1 = true) : f.IsShanghai t2 = true := by
  unfold ForkConfig.IsShanghai at h1 ⊢
  cases hp : f.ShanghaiTimestamp with
  | none => rw [hp] at h1; simp at h1
  | some T =>
      rw [hp] at h1
      simp only [decide_eq_true_eq] at h1 ⊢
      have : (t1 : Int) ≤ (t2 : Int) := by exact_mod_cast h
      omega
theorem ForkConfig.IsCancun_mono (f : ForkConfig) (t1 t2 : Nat) (h : t1 ≤ t2)
    (h1 : f.IsCancun t1 = true) : f.IsCancun t2 = true := by
  unfold ForkConfig.IsCancun at h1 ⊢
  cases hp : f.CancunTimestamp with
  | none => rw [hp] at h1; simp at h1
  | some T =>
      rw [hp] at h1
      simp only [decide_eq_true_eq] at h1 ⊢
      have : (t1 : Int) ≤ (t2 : Int) := by exact_mod_cast h
      omega
theorem ForkConfig.IsPrague_mono (f : ForkConfig) (t1 t2 : Nat) (h : t1 ≤ t2)
    (h1 : f.IsPrague t1 = true) : f.IsPrague t2 = true := by
  unfold ForkConfig.IsPrague at h1 ⊢
  cases hp : f.PragueTimestamp with
  | none => rw [hp] at h1; simp at h1
  | some T =>
      rw [hp] at h1
      simp only [decide_eq_true_eq] at h1 ⊢
      have : (t1 : Int) ≤ (t2 : Int) := by exact_mod_cast h
      omega

theorem VerifyPayload_prefork_eq (step : NewPayloads) (forkConfig : ForkConfig)
    (calcExcessDataGas : Nat → Nat → Nat) (txs : List TransactionWithBlobData)
    (payload : ExecutableData) (prev : Option ExecutableData)
    (hpre : forkConfig.IsCancun payload.Timestamp = false) :
    step.VerifyPayload forkConfig calcExcessDataGas txs payload prev =
      (if payload.ExcessDataGas ≠ none then
        some "payload contains non-nil excessDataGas pre-fork"
      else if payload.DataGasUsed ≠ none then
        some "payload contains non-nil dataGasUsed pre-fork"
      else
        none) := by
  unfold NewPayloads.VerifyPayload
  rw [hpre]
  simp

/-! ### Claim theorems -/

/-- C1: the claim says `GetBlobListByIndex(a, b)` with `a > b` returns the
descending sequence `[a, a-1, ..., b]`. The code instead descends from the
END index, `[b, b-1, ...]`, underflowing the `uint64` below blob id 0: at
`(startIndex, endIndex) = (2, 0)` it returns `[0, 2^64-1, 2^64-2]` where the
claim (and the "out of order" call sites) require `[2, 1, 0]`. The ascending
case behaves as claimed. -/
theorem getBlobListByIndex_descending_eval :
    GetBlobListByIndex 0 2 = [0, 1, 2] ∧
    GetBlobListByIndex 2 0 = [0, 2 ^ 64 - 1, 2 ^ 64 - 2] ∧
    GetBlobListByIndex 2 0 ≠ [2, 1, 0] := by
  refine ⟨?_, ?_, ?_⟩ <;> decide

/-- C5: for every `uint64` blob id other than 0, every one of the 4096
32-byte field elements written by `FillBlob`, read as a big-endian integer,
is strictly below the BLS modulus. `sha256` is the external hash, assumed
only to produce 32-byte outputs. -/
theorem fillBlob_elements_lt_modulus (sha256 : List Nat → List Nat)
    (hlen : ∀ xs, (sha256 xs).length = 32)
    (hbyte : ∀ xs, ∀ x ∈ sha256 xs, x < 256)
    (blobId : Nat) (h0 : blobId ≠ 0) (hbound : blobId < 2 ^ 64)
    (blob : List (List Nat)) :
    ∃ b, FillBlob sha256 blobId (some blob) = Except.ok b ∧
      b.length = FieldElementsPerBlob ∧
      (∀ c ∈ b, c.length = 32) ∧
      (∀ c ∈ b, bytesBE c < bytesBE BlsModulus) := by
  refine ⟨fillChunks sha256 (sha256 (beBytes8 blobId)) FieldElementsPerBlob,
    ?_, ?_, ?_, ?_⟩
  · simp [FillBlob, h0]
  · exact fillChunks_length sha256 _ _
  · exact fillChunks_chunk_length sha256 _ _
  · exact fillChunks_chunk_lt sha256 hbyte _ _ (hbyte (beBytes8 blobId))

/-- Witness for C5 at `sha256 := fun _ => 32 bytes of 7`, blob id 1, on the
fresh all-zero buffer. -/
theorem fillBlob_elements_lt_modulus_witness :
    ∃ b, FillBlob (fun _ => List.replicate 32 7) 1 (some zeroBlob) = Except.ok b ∧
      b.length = FieldElementsPerBlob ∧
      (∀ c ∈ b, c.length = 32) ∧
      (∀ c ∈ b, bytesBE c < bytesBE BlsModulus) :=
  fillBlob_elements_lt_modulus (fun _ => List.replicate 32 7)
    (fun _ => by simp)
    (fun _ x hx => by
      have := List.eq_of_mem_replicate hx
      omega)
    1 (by decide) (by norm_num) zeroBlob

/-- C6: the synthesizer round-trips: filling a fresh all-zero buffer with any
`uint64` blob id yields a blob that `VerifyBlob` accepts with no error; id 0
leaves the buffer all-zero, and `VerifyBlob 0` accepts exactly the all-zero
(4096 chunk) blob. -/
theorem fillBlob_verifyBlob_roundtrip (sha256 : List Nat → List Nat)
    (blobId : Nat) (hbound : blobId < 2 ^ 64) :
    (∃ b, FillBlob sha256 blobId (some zeroBlob) = Except.ok b ∧
      VerifyBlob sha256 blobId (some b) = (true, none)) ∧
    FillBlob sha256 0 (some zeroBlob) = Except.ok zeroBlob ∧
    (∀ b : List (List Nat), b.length = FieldElementsPerBlob →
      (VerifyBlob sha256 0 (some b) = (true, none) ↔ b = zeroBlob)) := by
  have hzlen : zeroBlob.length = FieldElementsPerBlob := by simp [zeroBlob]
  have hzero : ∀ b : List (List Nat), b.length = FieldElementsPerBlob →
      (VerifyBlob sha256 0 (some b) = (true, none) ↔ b = zeroBlob) := by
    intro b hb
    have : VerifyBlob sha256 0 (some b) = (zeroChunksCheck b FieldElementsPerBlob, none) := by
      simp [VerifyBlob]
    rw [this]
    rw [show zeroBlob = List.replicate FieldElementsPerBlob (List.replicate 32 0) from rfl]
    rw [← zeroChunksCheck_iff FieldElementsPerBlob b hb]
    simp
  refine ⟨?_, rfl, hzero⟩
  by_cases h0 : blobId = 0
  · subst h0
    refine ⟨zeroBlob, rfl, ?_⟩
    exact (hzero zeroBlob hzlen).mpr rfl
  · refine ⟨fillChunks sha256 (sha256 (beBytes8 blobId)) FieldElementsPerBlob, ?_, ?_⟩
    · simp [FillBlob, h0]
    · have : VerifyBlob sha256 blobId
          (some (fillChunks sha256 (sha256 (beBytes8 blobId)) FieldElementsPerBlob)) =
          (verifyChunks sha256 (sha256 (beBytes8 blobId))
            (fillChunks sha256 (sha256 (beBytes8 blobId)) FieldElementsPerBlob)
            FieldElementsPerBlob, none) := by
        simp [VerifyBlob, h0]
      rw [this, verifyChunks_fillChunks]

/-- Witness for C6 at a constant hash function and blob id 5. -/
theorem fillBlob_verifyBlob_roundtrip_witness :
    (∃ b, FillBlob (fun _ => List.replicate 32 7) 5 (some zeroBlob) = Except.ok b ∧
      VerifyBlob (fun _ => List.replicate 32 7) 5 (some b) = (true, none)) ∧
    FillBlob (fun _ => List.replicate 32 7) 0 (some zeroBlob) = Except.ok zeroBlob ∧
    (∀ b : List (List Nat), b.length = FieldElementsPerBlob →
      (VerifyBlob (fun _ => List.replicate 32 7) 0 (some b) = (true, none) ↔ b = zeroBlob)) :=
  fillBlob_verifyBlob_roundtrip (fun _ => List.replicate 32 7) 5 (by norm_num)

/-- C7: for every 48-byte commitment, the versioned hash is 32 bytes, its
first byte is the protocol version constant 0x01, and bytes 1..31 are bytes
1..31 of `sha256(commitment)`. -/
theorem kzgToVersionedHash_spec (sha256 : List Nat → List Nat)
    (hlen : ∀ xs, (sha256 xs).length = 32)
    (c : List Nat) (hc : c.length = 48) :
    (KZGToVersionedHash sha256 c).length = 32 ∧
    (KZGToVersionedHash sha256 c).getD 0 0 = BlobCommitmentVersionKZG ∧
    (∀ i, 1 ≤ i → i < 32 →
      (KZGToVersionedHash sha256 c).getD i 0 = (sha256 c).getD i 0) := by
  have h32 := hlen c
  refine ⟨by simp [KZGToVersionedHash, h32], ?_, ?_⟩
  · cases hsc : sha256 c with
    | nil => rw [hsc] at h32; simp at h32
    | cons a t =>
        unfold KZGToVersionedHash
        rw [hsc]
        simp
  · intro i h1 h2
    cases hsc : sha256 c with
    | nil => rw [hsc] at h32; simp at h32
    | cons a t =>
        unfold KZGToVersionedHash
        rw [hsc]
        cases i with
        | zero => omega
        | succ j => simp

/-- Witness for C7 at a constant hash function and the zero commitment. -/
theorem kzgToVersionedHash_spec_witness :
    (KZGToVersionedHash (fun _ => List.replicate 32 0) (List.replicate 48 0)).length = 32 ∧
    (KZGToVersionedHash (fun _ => List.replicate 32 0) (List.replicate 48 0)).getD 0 0 =
      BlobCommitmentVersionKZG ∧
    (KZGToVersionedHash (fun _ => List.replicate 32 0) (List.replicate 48 0)).getD 5 0 =
      (List.replicate 32 0 : List Nat).getD 5 0 := by
  have h := kzgToVersionedHash_spec (fun _ => List.replicate 32 0)
    (fun _ => by simp) (List.replicate 48 0) (by simp)
  exact ⟨h.1, h.2.1, h.2.2 5 (by omega) (by omega)⟩

/-- C2 is refuted: a payload with a single matched blob transaction whose
wrap-data versioned hashes (derived from its recorded commitments) differ
from its protocol-level blob-hash list at index 0, with all four list lengths
equal, is accepted by `GetBlobDataInPayload` with no error — the function
compares lengths only, never entries. -/
theorem getBlobDataInPayload_hash_mismatch_accepted :
    KZGToVersionedHash (fun _ => List.replicate 32 0) (List.replicate 48 0) ≠
      List.replicate 32 5 ∧
    GetBlobDataInPayload
      (fun h => if h = 0 then
        some (PoolTx.withBlobData
          ⟨some ⟨[7], [List.replicate 48 0], [9]⟩, [List.replicate 32 5]⟩)
      else none)
      [⟨BlobTxType, 0⟩] =
      Except.ok ([⟨some ⟨[7], [List.replicate 48 0], [9]⟩, [List.replicate 32 5]⟩],
        [⟨List.replicate 32 5, List.replicate 48 0, 7, 9⟩]) := by
  exact ⟨by decide, by rfl⟩

/-- C2 (amended): `GetBlobDataInPayload` returns an error whenever some
matched blob transaction's recorded wrap data has list lengths disagreeing
with its protocol-level blob-hash list (the four lists blob-hashes /
commitments / blobs / proofs must all be of equal length); entrywise
versioned-hash differences with equal lengths are not detected. -/
theorem getBlobDataInPayload_length_mismatch_errors (pool : Nat → Option PoolTx)
    (txs : List DecodedTx) (tx : DecodedTx) (htx : tx ∈ txs)
    (hty : tx.txType = BlobTxType) (blobTx : TransactionWithBlobData)
    (blobData : BlobTxWrapData)
    (hpool : pool tx.hash = some (PoolTx.withBlobData blobTx))
    (hdata : blobTx.BlobData = some blobData)
    (hbad : ¬(blobTx.BlobHashes.length = blobData.Commitments.length ∧
        blobData.Commitments.length = blobData.Blobs.length ∧
        blobData.Blobs.length = blobData.Proofs.length)) :
    ∃ s, GetBlobDataInPayload pool txs = Except.error s := by
  cases hres : GetBlobDataInPayload pool txs with
  | error s => exact ⟨s, rfl⟩
  | ok r =>
      obtain ⟨blobTx', blobData', hpool', hdata', hl1, hl2, hl3⟩ :=
        GetBlobDataInPayload_ok_good pool txs r hres tx htx hty
      rw [hpool] at hpool'
      injection hpool' with h
      injection h with h
      subst h
      rw [hdata] at hdata'
      injection hdata' with h
      subst h
      exact absurd ⟨hl1, hl2, hl3⟩ hbad

/-- Witness for the amended C2: one matched blob transaction whose wrap data
has one commitment but no blobs. -/
theorem getBlobDataInPayload_length_mismatch_errors_witness :
    ∃ s, GetBlobDataInPayload
      (fun h => if h = 0 then
        some (PoolTx.withBlobData
          ⟨some ⟨[], [List.replicate 48 0], []⟩, [List.replicate 32 5]⟩)
      else none)
      [⟨BlobTxType, 0⟩] = Except.error s :=
  getBlobDataInPayload_length_mismatch_errors
    (fun h => if h = 0 then
      some (PoolTx.withBlobData
        ⟨some ⟨[], [List.replicate 48 0], []⟩, [List.replicate 32 5]⟩)
    else none)
    [⟨BlobTxType, 0⟩] ⟨BlobTxType, 0⟩ (by simp) rfl
    ⟨some ⟨[], [List.replicate 48 0], []⟩, [List.replicate 32 5]⟩
    ⟨[], [List.replicate 48 0], []⟩ rfl rfl (by decide)

/-- C3 is refuted: when the commitment computation fails at index 1 of a
two-blob list with underlying error "boom", the returned error is exactly
"could not convert blob to commitment: boom" — it wraps the underlying error
but contains no digit at all, hence not the failing index. -/
theorem computeCommitmentsAndProofs_error_omits_index :
    (ComputeCommitmentsAndProofs (fun _ => List.replicate 32 0)
      ⟨fun b => if b = 11 then Except.error "boom" else Except.ok (List.replicate 48 0),
       fun _ _ => Except.ok 0⟩ [10, 11]).err =
      some "could not convert blob to commitment: boom" ∧
    ("could not convert blob to commitment: boom".toList.all
      (fun ch => !ch.isDigit)) = true := by
  exact ⟨by decide, by decide⟩

/-- C3 (amended): if the commitment or proof computation fails for the blob
at index `i` (all earlier blobs succeeding), `ComputeCommitmentsAndProofs`
returns an error that wraps the underlying error (the underlying message is a
suffix of the returned one, behind a fixed text naming the failed operation),
but the failing index is not part of the error. -/
theorem computeCommitmentsAndProofs_error_wraps_message
    (sha256 : List Nat → List Nat) (cryptoCtx : KZGContext)
    (blobs : List Nat) (i : Nat) (e : String) (hi : i < blobs.length)
    (hprev : ∀ j, j < i → ∃ c p,
      cryptoCtx.BlobToKZGCommitment (blobs.getD j 0) = Except.ok c ∧
      cryptoCtx.ComputeBlobKZGProof (blobs.getD j 0) c = Except.ok p)
    (hfail : cryptoCtx.BlobToKZGCommitment (blobs.getD i 0) = Except.error e ∨
      ∃ c, cryptoCtx.BlobToKZGCommitment (blobs.getD i 0) = Except.ok c ∧
        cryptoCtx.ComputeBlobKZGProof (blobs.getD i 0) c = Except.error e) :
    ∃ s, (ComputeCommitmentsAndProofs sha256 cryptoCtx blobs).err = some s ∧
      e.toList <:+ s.toList := by
  obtain ⟨s, hs, hsuf⟩ :=
    computeCAPLoop_error_spec sha256 cryptoCtx blobs i e hi hprev hfail
  exact ⟨s, by simp [ComputeCommitmentsAndProofs, hs], hsuf⟩

/-- Witness for the amended C3 at the concrete failing context of the
counterexample. -/
theorem computeCommitmentsAndProofs_error_wraps_message_witness :
    ∃ s, (ComputeCommitmentsAndProofs (fun _ => List.replicate 32 0)
      ⟨fun b => if b = 11 then Except.error "boom" else Except.ok (List.replicate 48 0),
       fun _ _ => Except.ok 0⟩ [10, 11]).err = some s ∧
      "boom".toList <:+ s.toList :=
  computeCommitmentsAndProofs_error_wraps_message (fun _ => List.replicate 32 0)
    ⟨fun b => if b = 11 then Except.error "boom" else Except.ok (List.replicate 48 0),
     fun _ _ => Except.ok 0⟩ [10, 11] 1 "boom" (by decide)
    (fun j hj => ⟨List.replicate 48 0, 0, by
        have : j = 0 := by omega
        subst this
        exact ⟨rfl, rfl⟩⟩)
    (Or.inl rfl)

/-- C4: `ComputeCommitmentsAndProofs` is atomic: with an error, all three
result lists are empty; without one, the three lists all have the input
length and entry `i` is derived from input blob `i` (its commitment from the
context, its proof from blob and commitment, its versioned hash from the
commitment). -/
theorem computeCommitmentsAndProofs_atomic (sha256 : List Nat → List Nat)
    (cryptoCtx : KZGContext) (blobs : List Nat) :
    ((ComputeCommitmentsAndProofs sha256 cryptoCtx blobs).err ≠ none →
      (ComputeCommitmentsAndProofs sha256 cryptoCtx blobs).commitments = [] ∧
      (ComputeCommitmentsAndProofs sha256 cryptoCtx blobs).versionedHashes = [] ∧
      (ComputeCommitmentsAndProofs sha256 cryptoCtx blobs).proofs = []) ∧
    ((ComputeCommitmentsAndProofs sha256 cryptoCtx blobs).err = none →
      (ComputeCommitmentsAndProofs sha256 cryptoCtx blobs).commitments.length = blobs.length ∧
      (ComputeCommitmentsAndProofs sha256 cryptoCtx blobs).versionedHashes.length = blobs.length ∧
      (ComputeCommitmentsAndProofs sha256 cryptoCtx blobs).proofs.length = blobs.length ∧
      ∀ i, i < blobs.length →
        cryptoCtx.BlobToKZGCommitment (blobs.getD i 0) =
          Except.ok ((ComputeCommitmentsAndProofs sha256 cryptoCtx blobs).commitments.getD i []) ∧
        cryptoCtx.ComputeBlobKZGProof (blobs.getD i 0)
            ((ComputeCommitmentsAndProofs sha256 cryptoCtx blobs).commitments.getD i []) =
          Except.ok ((ComputeCommitmentsAndProofs sha256 cryptoCtx blobs).proofs.getD i 0) ∧
        (ComputeCommitmentsAndProofs sha256 cryptoCtx blobs).versionedHashes.getD i [] =
          KZGToVersionedHash sha256
            ((ComputeCommitmentsAndProofs sha256 cryptoCtx blobs).commitments.getD i [])) := by
  cases h : computeCAPLoop sha256 cryptoCtx blobs with
  | error e =>
      have hr : ComputeCommitmentsAndProofs sha256 cryptoCtx blobs = ⟨[], [], [], some e⟩ := by
        simp [ComputeCommitmentsAndProofs, h]
      rw [hr]
      constructor
      · intro _
        exact ⟨rfl, rfl, rfl⟩
      · intro habs
        simp at habs
  | ok triple =>
      obtain ⟨cs, vs, ps⟩ := triple
      have hr : ComputeCommitmentsAndProofs sha256 cryptoCtx blobs = ⟨cs, vs, ps, none⟩ := by
        simp [ComputeCommitmentsAndProofs, h]
      obtain ⟨h1, h2, h3, hspec⟩ := computeCAPLoop_ok_spec sha256 cryptoCtx blobs cs vs ps h
      rw [hr]
      constructor
      · intro habs
        simp at habs
      · intro _
        exact ⟨h1, h2, h3, hspec⟩

/-- Witness for C4 at an always-succeeding context on a two-blob list. -/
theorem computeCommitmentsAndProofs_atomic_witness :
    (ComputeCommitmentsAndProofs (fun _ => List.replicate 32 0)
      ⟨fun _ => Except.ok (List.replicate 48 0), fun _ _ => Except.ok 0⟩
      [1, 2]).commitments.length = 2 :=
  ((computeCommitmentsAndProofs_atomic (fun _ => List.replicate 32 0)
    ⟨fun _ => Except.ok (List.replicate 48 0), fun _ _ => Except.ok 0⟩
    [1, 2]).2 rfl).1

/-- C8: for a fork configuration with ordered activation timestamps
(Shanghai ≤ Cancun ≤ Prague, each when present), both `GetPayloadVersion`
and `NewPayloadVersion` are monotone in the block timestamp. -/
theorem payloadVersion_monotone (f : ForkConfig)
    (hsc : ∀ s c, f.ShanghaiTimestamp = some s → f.CancunTimestamp = some c → s ≤ c)
    (hcp : ∀ c p, f.CancunTimestamp = some c → f.PragueTimestamp = some p → c ≤ p)
    (t1 t2 : Nat) (h12 : t1 ≤ t2) :
    f.GetPayloadVersion t1 ≤ f.GetPayloadVersion t2 ∧
    f.NewPayloadVersion t1 ≤ f.NewPayloadVersion t2 := by
  have main : f.GetPayloadVersion t1 ≤ f.GetPayloadVersion t2 := by
    unfold ForkConfig.GetPayloadVersion
    by_cases hp1 : f.IsPrague t1 = true
    · rw [if_pos hp1, if_pos (ForkConfig.IsPrague_mono f t1 t2 h12 hp1)]
    · rw [if_neg hp1]
      by_cases hc1 : f.IsCancun t1 = true
      · rw [if_pos hc1]
        have hc2 := ForkConfig.IsCancun_mono f t1 t2 h12 hc1
        by_cases hp2 : f.IsPrague t2 = true
        · rw [if_pos hp2]
          omega
        · rw [if_neg hp2, if_pos hc2]
      · rw [if_neg hc1]
        by_cases hs1 : f.IsShanghai t1 = true
        · rw [if_pos hs1]
          have hs2 := ForkConfig.IsShanghai_mono f t1 t2 h12 hs1
          by_cases hp2 : f.IsPrague t2 = true
          · rw [if_pos hp2]
            omega
          · rw [if_neg hp2]
            by_cases hc2 : f.IsCancun t2 = true
            · rw [if_pos hc2]
              omega
            · rw [if_neg hc2, if_pos hs2]
        · rw [if_neg hs1]
          by_cases hp2 : f.IsPrague t2 = true
          · rw [if_pos hp2]
            omega
          · rw [if_neg hp2]
            by_cases hc2 : f.IsCancun t2 = true
            · rw [if_pos hc2]
              omega
            · rw [if_neg hc2]
              by_cases hs2 : f.IsShanghai t2 = true
              · rw [if_pos hs2]
                omega
              · rw [if_neg hs2]
  exact ⟨main, main⟩

/-- Witness for C8 at the configuration Shanghai 0, Cancun 10, Prague 20 and
timestamps 5 ≤ 15. -/
theorem payloadVersion_monotone_witness :
    (⟨some 0, some 10, some 20⟩ : ForkConfig).GetPayloadVersion 5 ≤
      (⟨some 0, some 10, some 20⟩ : ForkConfig).GetPayloadVersion 15 ∧
    (⟨some 0, some 10, some 20⟩ : ForkConfig).NewPayloadVersion 5 ≤
      (⟨some 0, some 10, some 20⟩ : ForkConfig).NewPayloadVersion 15 :=
  payloadVersion_monotone ⟨some 0, some 10, some 20⟩
    (by
      intro s c hs hc
      injection hs with hs
      injection hc with hc
      omega)
    (by
      intro c p hc hp
      injection hc with hc
      injection hp with hp
      omega)
    5 15 (by omega)

/-- C9: for every payload whose timestamp is before the Cancun activation,
`NewPayloads.VerifyPayload` errors exactly when the payload carries a non-nil
excess-data-gas or data-gas-used field; with both absent it succeeds, and the
pre-fork result never depends on the step's expectations, the fee-recurrence
helper, the included blob transactions, or the previous payload. -/
theorem verifyPayload_prefork_blob_fields (step : NewPayloads)
    (forkConfig : ForkConfig) (calcExcessDataGas : Nat → Nat → Nat)
    (blobTxsInPayload : List TransactionWithBlobData)
    (payload : ExecutableData) (previousPayload : Option ExecutableData)
    (hpre : forkConfig.IsCancun payload.Timestamp = false) :
    (step.VerifyPayload forkConfig calcExcessDataGas blobTxsInPayload payload
        previousPayload ≠ none ↔
      (payload.ExcessDataGas ≠ none ∨ payload.DataGasUsed ≠ none)) ∧
    (∀ (step' : NewPayloads) (calcExcessDataGas' : Nat → Nat → Nat)
        (blobTxsInPayload' : List TransactionWithBlobData)
        (previousPayload' : Option ExecutableData),
      step'.VerifyPayload forkConfig calcExcessDataGas' blobTxsInPayload' payload
          previousPayload' =
        step.VerifyPayload forkConfig calcExcessDataGas blobTxsInPayload payload
          previousPayload) := by
  constructor
  · rw [VerifyPayload_prefork_eq step forkConfig calcExcessDataGas blobTxsInPayload
      payload previousPayload hpre]
    cases hx : payload.ExcessDataGas <;> cases hu : payload.DataGasUsed <;> simp
  · intro step' calc' txs' prev'
    rw [VerifyPayload_prefork_eq step forkConfig calcExcessDataGas blobTxsInPayload
      payload previousPayload hpre,
      VerifyPayload_prefork_eq step' forkConfig calc' txs' payload prev' hpre]

/-- Witness for C9 at a Cancun-at-100 configuration and a timestamp-5 payload
with both blob-gas fields absent. -/
theorem verifyPayload_prefork_blob_fields_witness :
    ((NewPayloads.mk 0 0 [] 0 0).VerifyPayload ⟨none, some 100, none⟩ (fun _ _ => 0)
        [] ⟨5, none, none⟩ none ≠ none ↔
      ((⟨5, none, none⟩ : ExecutableData).ExcessDataGas ≠ none ∨
        (⟨5, none, none⟩ : ExecutableData).DataGasUsed ≠ none)) ∧
    (∀ (step' : NewPayloads) (calcExcessDataGas' : Nat → Nat → Nat)
        (blobTxsInPayload' : List TransactionWithBlobData)
        (previousPayload' : Option ExecutableData),
      step'.VerifyPayload ⟨none, some 100, none⟩ calcExcessDataGas'
          blobTxsInPayload' ⟨5, none, none⟩ previousPayload' =
        (NewPayloads.mk 0 0 [] 0 0).VerifyPayload ⟨none, some 100, none⟩
          (fun _ _ => 0) [] ⟨5, none, none⟩ none) :=
  verifyPayload_prefork_blob_fields (NewPayloads.mk 0 0 [] 0 0)
    ⟨none, some 100, none⟩ (fun _ _ => 0) [] ⟨5, none, none⟩ none (by decide)

/-- C10: the zero-valued count parameters of the three steps default to one:
`GetPayloadCount`, `GetClientCount` and `GetBlobsPerTransaction` return 1 when
their field is 0 and the field's value unchanged otherwise. -/
theorem step_counts_default_to_one (p : NewPayloads) (l : LaunchClients)
    (s : SendBlobTransactions) :
    ((p.PayloadCount = 0 → p.GetPayloadCount = 1) ∧
      (p.PayloadCount ≠ 0 → p.GetPayloadCount = p.PayloadCount)) ∧
    ((l.ClientCount = 0 → l.GetClientCount = 1) ∧
      (l.ClientCount ≠ 0 → l.GetClientCount = l.ClientCount)) ∧
    ((s.BlobsPerTransaction = 0 → s.GetBlobsPerTransaction = 1) ∧
      (s.BlobsPerTransaction ≠ 0 → s.GetBlobsPerTransaction = s.BlobsPerTransaction)) := by
  unfold NewPayloads.GetPayloadCount LaunchClients.GetClientCount
    SendBlobTransactions.GetBlobsPerTransaction
  refine ⟨⟨?_, ?_⟩, ⟨?_, ?_⟩, ⟨?_, ?_⟩⟩ <;> intro h <;> simp [h]

/-- Witness for C10 at zero and nonzero counts for all three steps. -/
theorem step_counts_default_to_one_witness :
    (NewPayloads.mk 0 0 [] 0 0).GetPayloadCount = 1 ∧
    (NewPayloads.mk 7 0 [] 0 0).GetPayloadCount = 7 ∧
    (LaunchClients.mk 0 false false).GetClientCount = 1 ∧
    (LaunchClients.mk 4 false false).GetClientCount = 4 ∧
    (SendBlobTransactions.mk 0 0 none none none false false 0 0).GetBlobsPerTransaction = 1 ∧
    (SendBlobTransactions.mk 0 6 none none none false false 0 0).GetBlobsPerTransaction = 6 :=
  ⟨(step_counts_default_to_one (NewPayloads.mk 0 0 [] 0 0) (LaunchClients.mk 0 false false)
      (SendBlobTransactions.mk 0 0 none none none false false 0 0)).1.1 rfl,
   (step_counts_default_to_one (NewPayloads.mk 7 0 [] 0 0) (LaunchClients.mk 0 false false)
      (SendBlobTransactions.mk 0 0 none none none false false 0 0)).1.2 (by decide),
   (step_counts_default_to_one (NewPayloads.mk 0 0 [] 0 0) (LaunchClients.mk 0 false false)
      (SendBlobTransactions.mk 0 0 none none none false false 0 0)).2.1.1 rfl,
   (step_counts_default_to_one (NewPayloads.mk 0 0 [] 0 0) (LaunchClients.mk 4 false false)
      (SendBlobTransactions.mk 0 0 none none none false false 0 0)).2.1.2 (by decide),
   (step_counts_default_to_one (NewPayloads.mk 0 0 [] 0 0) (LaunchClients.mk 0 false false)
      (SendBlobTransactions.mk 0 0 none none none false false 0 0)).2.2.1 rfl,
   (step_counts_default_to_one (NewPayloads.mk 0 0 [] 0 0) (LaunchClients.mk 0 false false)
      (SendBlobTransactions.mk 0 6 none none none false false 0 0)).2.2.2 (by decide)⟩

end Hive
